import Mathlib

/-!
Verification of `download_ebay_images.py`. The file gives a shallow
embedding of the script's image-candidate extraction, URL-upgrade and
gallery-driver logic, and proves or refutes the claims of the design
specification against that embedding. Strings are modelled as `List Char`;
the individual Python regular expressions used by the script are embedded
as concrete matchers translated from each pattern; the Playwright browser,
`re.compile` and the file system are external collaborators, modelled as
abstract functions in `Env`.
-/

namespace EbayImages

/-- Strings of the Python source, modelled as lists of characters. -/
abbrev Str := List Char

/-- Boolean prefix test on character lists (Python `str.startswith`). -/
def pfx : Str → Str → Bool
  | [], _ => true
  | _ :: _, [] => false
  | a :: as, b :: bs => if a = b then pfx as bs else false

/-- Python's substring test `pat in s`. -/
def hasSub (pat : Str) : Str → Bool
  | [] => pfx pat []
  | c :: rest => pfx pat (c :: rest) || hasSub pat rest

/-- Python `str.replace` (all non-overlapping occurrences, leftmost first),
written with explicit fuel so that it is structurally recursive;
`replaceAll` instantiates the fuel with the string length, which is enough
because every step consumes at least one character of a nonempty pattern. -/
def replaceAllAux (pat rep : Str) : Nat → Str → Str
  | 0, s => s
  | _ + 1, [] => []
  | fuel + 1, c :: rest =>
    if pat = [] then c :: replaceAllAux pat rep fuel rest
    else if pfx pat (c :: rest) then rep ++ replaceAllAux pat rep fuel ((c :: rest).drop pat.length)
    else c :: replaceAllAux pat rep fuel rest

def replaceAll (s pat rep : Str) : Str := replaceAllAux pat rep s.length s

/-- Python whitespace, for `str.strip` and no-argument `str.split`. -/
def pyIsSpace (c : Char) : Bool :=
  c == ' ' || c == '\t' || c == '\n' || c == '\r' || c == '\x0b' || c == '\x0c'

/-- Python `str.strip()`. -/
def trim (s : Str) : Str := ((s.dropWhile pyIsSpace).reverse.dropWhile pyIsSpace).reverse

/-- Split at every separator character, keeping empty groups. -/
def splitBy (p : Char → Bool) : Str → List Str
  | [] => [[]]
  | c :: rest =>
    if p c then [] :: splitBy p rest
    else
      match splitBy p rest with
      | [] => [[c]]
      | g :: gs => (c :: g) :: gs

/-- Python `s.split(",")`. -/
def splitComma (s : Str) : List Str := splitBy (fun c => c == ',') s

/-- Python `s.split()` (split on whitespace runs, discarding empties). -/
def pysplit (s : Str) : List Str := (splitBy pyIsSpace s).filter (fun g => !g.isEmpty)

/-- Translation of `re.search(r'(\d+)', s)` followed by `int(...)`: the
first maximal run of digits as a number, `none` when `s` has no digit. -/
def firstNumber : Str → Option Nat
  | [] => none
  | c :: rest =>
    if c.isDigit then
      some ((c :: rest.takeWhile Char.isDigit).foldl (fun n d => 10 * n + (d.toNat - 48)) 0)
    else firstNumber rest

/-- The size-token replacement table of `upgrade_to_fullsize_image`
(source lines 194-206). -/
def sizeReplacements : List (Str × Str) :=
  [("s-l64".data, "s-l1600".data), ("s-l96".data, "s-l1600".data),
   ("s-l140".data, "s-l1600".data), ("s-l225".data, "s-l1600".data),
   ("s-l300".data, "s-l1600".data), ("s-l400".data, "s-l1600".data),
   ("s-l500".data, "s-l1600".data), ("s-l600".data, "s-l1600".data),
   ("s-l800".data, "s-l1600".data), ("s-l1000".data, "s-l1600".data),
   ("s-l1200".data, "s-l1600".data)]

/-- The `for old_size, new_size in size_replacements` loop (lines 208-211):
the first pair whose token occurs is applied and the loop breaks. -/
def replaceLoop : List (Str × Str) → Str → Str
  | [], u => u
  | (tok, rep) :: rest, u => if hasSub tok u then replaceAll u tok rep else replaceLoop rest u

/-- Longest nonempty leading run of non-`/` characters plus the remainder:
the deterministic reading of a greedy `[^/]+` whose following regex token
is a literal `/` (no shorter match can be followed by `/`). -/
def takeSeg (s : Str) : Option (Str × Str) :=
  let seg := s.takeWhile (fun c => c != '/')
  if seg.isEmpty then none else some (seg, s.drop seg.length)

/-- Try `(https://[^/]+/images/[^/]+/[^/]+)/s-l\d+` (the regex of source
line 218) at the start of `s`; returns the parenthesised group. -/
def structuralMatchAt (s : Str) : Option Str :=
  if pfx ("https://".data) s then
    match takeSeg (s.drop 8) with
    | none => none
    | some (seg1, r1) =>
      if pfx ("/images/".data) r1 then
        match takeSeg (r1.drop 8) with
        | none => none
        | some (seg2, r3) =>
          match r3 with
          | [] => none
          | c :: r3tl =>
            if c = '/' then
              match takeSeg r3tl with
              | none => none
              | some (seg3, r4) =>
                if pfx ("/s-l".data) r4 then
                  match r4.drop 4 with
                  | d :: _ =>
                    if d.isDigit then
                      some (("https://".data) ++ seg1 ++ ("/images/".data) ++ seg2 ++ ('/' :: seg3))
                    else none
                  | [] => none
                else none
            else none
      else none
  else none

/-- Embedding of the `re.search` position scan: try the matcher at each start position,
left to right, including the empty suffix. -/
def searchWith (f : Str → Option Str) : Str → Option Str
  | [] => f []
  | c :: rest =>
    match f (c :: rest) with
    | some r => some r
    | none => searchWith f rest

def structuralSearch (s : Str) : Option Str := searchWith structuralMatchAt s

def extAlternatives : List Str := [("jpg".data), ("jpeg".data), ("png".data), ("gif".data)]

def tryExt : List Str → Str → Option Str
  | [], _ => none
  | e :: rest, after => if pfx e after then some e else tryExt rest after

/-- Greedy backtracking for `[^/]+\.(jpg|jpeg|png|gif)` within one path
segment: try the longest stem first, alternatives in source order. -/
def fnSearchLen (run : Str) : Nat → Option Str
  | 0 => none
  | k + 1 =>
    match run.drop (k + 1) with
    | '.' :: after =>
      match tryExt extAlternatives after with
      | some e => some (run.take (k + 1) ++ ('.' :: e))
      | none => fnSearchLen run k
    | _ => fnSearchLen run k

/-- Try `/([^/]+\.(jpg|jpeg|png|gif))` (the regex of source line 222) at
the start of `s`. -/
def filenameMatchAt : Str → Option Str
  | '/' :: rest => fnSearchLen (rest.takeWhile (fun c => c != '/')) (rest.takeWhile (fun c => c != '/')).length
  | _ => none

def filenameSearch (s : Str) : Option Str := searchWith filenameMatchAt s

/-- Embedding of `upgrade_to_fullsize_image` (source lines 172-229). -/
def upgrade_to_fullsize_image (img_url : Str) : Str :=
  if img_url = [] then img_url
  else if hasSub ("s-l1600".data) img_url then img_url
  else
    let u := replaceLoop sizeReplacements img_url
    if !hasSub ("s-l".data) u && hasSub ("ebayimg.com".data) u then
      match structuralSearch u with
      | some base =>
        match filenameSearch u with
        | some fname => base ++ ("/s-l1600/".data) ++ fname
        | none => base ++ ("/s-l1600".data)
      | none => u
    else u

/-- Embedding of `extract_item_number` (source lines 232-247): `re.search(r'/itm/(\d+)', url)`. -/
def extract_item_number : Str → Option Str
  | [] => none
  | c :: rest =>
    if pfx ("/itm/".data) (c :: rest) then
      let ds := ((c :: rest).drop 5).takeWhile Char.isDigit
      if ds.isEmpty then extract_item_number rest else some ds
    else extract_item_number rest

/-- A DOM image element, with every attribute the script reads. -/
structure Elem where
  alt : Option Str
  dataZoomSrc : Option Str
  dataFullImage : Option Str
  dataOriginal : Option Str
  dataLargeImage : Option Str
  srcset : Option Str
  dataSrc : Option Str
  src : Option Str
deriving DecidableEq

/-- Embedding of `img.get_attribute(name)` for the attributes the script reads. -/
def getAttr (e : Elem) (name : Str) : Option Str :=
  if name = ("data-zoom-src".data) then e.dataZoomSrc
  else if name = ("data-full-image".data) then e.dataFullImage
  else if name = ("data-original".data) then e.dataOriginal
  else if name = ("data-large-image".data) then e.dataLargeImage
  else if name = ("srcset".data) then e.srcset
  else if name = ("data-src".data) then e.dataSrc
  else if name = ("src".data) then e.src
  else none

def dataAttrNames : List Str :=
  [("data-zoom-src".data), ("data-full-image".data), ("data-original".data), ("data-large-image".data)]

/-- Python truthiness plus placeholder rejection, the test
`img_url and not img_url.startswith("data:")`. -/
def usableO : Option Str → Bool
  | none => false
  | some v => !v.isEmpty && !pfx ("data:".data) v

/-- The `for attr in data_attrs` loop (lines 72-76): break on the first
usable value; an unbroken loop leaves `img_url` holding the last value read. -/
def dataAttrGo (e : Elem) : List Str → Option Str → Option Str
  | [], cur => cur
  | a :: rest, _ =>
    let v := getAttr e a
    if usableO v then v else dataAttrGo e rest v

def dataAttrLoop (e : Elem) : Option Str := dataAttrGo e dataAttrNames none

/-- Lines 87-97: `part.strip().split()`, skip if empty (`len(parts) >= 1`
fails), else the URL is the first token and the size is the first digit
run of the second token, defaulting to 0. -/
def parsePart (part : Str) : Option (Str × Nat) :=
  match pysplit (trim part) with
  | [] => none
  | url :: ds =>
    some (url, match ds with
      | [] => 0
      | d :: _ => (firstNumber d).getD 0)

/-- The srcset accumulation loop (lines 83-100) over the comma-separated
parts, carrying `largest_url` and `largest_size`; it updates only on a
strictly greater size. -/
def srcsetGo : List Str → Option Str → Nat → Option Str
  | [], best, _ => best
  | part :: rest, best, bestSize =>
    match parsePart part with
    | none => srcsetGo rest best bestSize
    | some (url, size) =>
      if bestSize < size then srcsetGo rest (some url) size else srcsetGo rest best bestSize

def srcsetLargest (ss : Str) : Option Str := srcsetGo (splitComma ss) none 0

/-- Lines 79-102: when the current value is unusable, consult `srcset`
(`if srcset:` skips both a missing and an empty attribute; the chosen
largest URL overwrites `img_url` unconditionally). -/
def srcsetStep (e : Elem) (cur : Option Str) : Option Str :=
  if usableO cur then cur
  else
    match getAttr e ("srcset".data) with
    | none => cur
    | some ss =>
      if ss.isEmpty then cur
      else
        match srcsetLargest ss with
        | some u => some u
        | none => cur

/-- Lines 104-106: fall back to `data-src`. -/
def dataSrcStep (e : Elem) (cur : Option Str) : Option Str :=
  if usableO cur then cur else getAttr e ("data-src".data)

/-- Lines 108-110: fall back to `src`. -/
def srcStep (e : Elem) (cur : Option Str) : Option Str :=
  if usableO cur then cur else getAttr e ("src".data)

/-- URL resolution in the five selector passes (lines 69-110). -/
def resolveChain (e : Elem) : Option Str :=
  srcStep e (dataSrcStep e (srcsetStep e (dataAttrLoop e)))

/-- URL resolution in the final broad pass (lines 139-154): the same chain
except that the srcset step is absent. -/
def resolveBroad (e : Elem) : Option Str :=
  srcStep e (dataSrcStep e (dataAttrLoop e))

/-- Embedding of `pattern.search(text)` of Python's `re`: the compiled expression
matches at some position, i.e. matches some contiguous substring. -/
def research (pat : RegularExpression Char) (s : Str) : Bool :=
  s.tails.any fun t => t.inits.any fun pre => pat.rmatch pre

structure ExtractState where
  images : List (Str × Str)
  seenAlts : List Str
deriving DecidableEq

/-- Lines 116-121 and 160-163: append unless the URL or the alt text has
already been accepted. -/
def appendCandidate (st : ExtractState) (u alt : Str) : ExtractState :=
  if u ∈ st.images.map Prod.fst then st
  else if alt ∈ st.seenAlts then st
  else ⟨st.images ++ [(u, alt)], st.seenAlts ++ [alt]⟩

/-- The per-element body shared by lines 60-121 and 132-163, parameterised
by the pass's resolution chain (`resolveChain` resp. `resolveBroad`). -/
def step (pat : RegularExpression Char) (resolve : Elem → Option Str) (st : ExtractState) (e : Elem) : ExtractState :=
  match e.alt with
  | none => st
  | some alt =>
    if alt.isEmpty then st
    else if research pat alt then
      match resolve e with
      | none => st
      | some v =>
        if !v.isEmpty && !pfx ("data:".data) v then
          appendCandidate st (upgrade_to_fullsize_image v) alt
        else st
    else st

/-- A rendered page: `page.locator(sel).all()` as a function from selector
text to element list (the DOM itself is Playwright's concern). -/
structure PageModel where
  locate : Str → List Elem

/-- The selector list of lines 48-54, in source order. -/
def selectors : List Str :=
  [("img[alt]".data), ("#vi_main_img_fs img".data), (".vi-image-carousel img".data),
   ("#vi_main_img_fs_slider img".data), (".vi-image-carousel-list img".data)]

def runPass (pat : RegularExpression Char) (resolve : Elem → Option Str) (st : ExtractState) (elems : List Elem) : ExtractState :=
  elems.foldl (step pat resolve) st

/-- The five unconditional selector passes (lines 56-125). -/
def specificPassState (p : PageModel) (pat : RegularExpression Char) : ExtractState :=
  selectors.foldl (fun st sel => runPass pat resolveChain st (p.locate sel)) ⟨[], []⟩

/-- Embedding of `get_matching_images` after navigation and pattern compilation
(lines 43-169): the broad `img` pass runs only when the five selector
passes produced nothing. -/
def getMatchingImagesCore (p : PageModel) (pat : RegularExpression Char) : List (Str × Str) :=
  let st := specificPassState p pat
  if st.images = [] then (runPass pat resolveBroad st (p.locate ("img".data))).images
  else st.images

/-- The external collaborators: navigation (which may raise), pattern
compilation, file existence, and download success. -/
structure Env where
  nav : Str → Except Unit PageModel
  compile : Str → Option (RegularExpression Char)
  fileExists : Str → Bool
  downloadOk : Str → Bool

/-- Embedding of `get_matching_images` (lines 21-169). `page.goto` at line 33 sits
outside every `try` block, so a navigation failure raises out of the
function (`Except.error`); an uncompilable pattern returns `[]`. -/
def get_matching_images (env : Env) (url regexStr : Str) : Except Unit (List (Str × Str)) :=
  match env.nav url with
  | Except.error e => Except.error e
  | Except.ok page =>
    match env.compile regexStr with
    | none => Except.ok []
    | some pat => Except.ok (getMatchingImagesCore page pat)

/-- Observable side effects of the download loop. -/
inductive Event where
  | fetch (url fp : Str)
  | write (fp : Str)
deriving DecidableEq

def eventPath : Event → Str
  | Event.fetch _ fp => fp
  | Event.write fp => fp

/-- Embedding of the format `idx:03d`: decimal digits, left-padded with zeros to width 3. -/
def pad3 (n : Nat) : Str :=
  List.replicate (3 - (Nat.toDigits 10 n).length) '0' ++ Nat.toDigits 10 n

structure LoopResult where
  downloaded : List Str
  skipped : List Str
  filenames : List Str
  events : List Event
deriving DecidableEq

/-- The per-candidate loop of `process_gallery` (lines 331-351), also
recording every filename it computes and every fetch/write effect.
`download_image` (lines 250-272) is one fetch plus, on success, one write. -/
def downloadLoop (env : Env) (folder num : Str) : List (Str × Str) → Nat → LoopResult
  | [], _ => ⟨[], [], [], []⟩
  | (url, _alt) :: rest, idx =>
    let fn := num ++ ('-' :: pad3 idx) ++ (".jpg".data)
    let fp := folder ++ ('/' :: fn)
    let r := downloadLoop env folder num rest (idx + 1)
    if env.fileExists fp then ⟨r.downloaded, fn :: r.skipped, fn :: r.filenames, r.events⟩
    else if env.downloadOk url then
      ⟨fn :: r.downloaded, r.skipped, fn :: r.filenames, Event.fetch url fp :: Event.write fp :: r.events⟩
    else ⟨r.downloaded, r.skipped, fn :: r.filenames, Event.fetch url fp :: r.events⟩

/-- An input task: `item.get("ebay_url", "")`, `item.get("regex", "")`,
plus pass-through fields. -/
structure Task where
  ebay_url : Str
  regex : Str
  extra : List (Str × Str)
deriving DecidableEq

/-- An output manifest entry (lines 354-359). -/
structure GalleryItem where
  item : Task
  downloaded_files : List Str
  skipped_files : List Str
  total_matched : Nat
deriving DecidableEq

structure RunResult where
  output : List GalleryItem
  events : List Event
  manifestWritten : Bool
deriving DecidableEq

/-- The task loop of `process_gallery` (lines 294-365). A navigation
exception from `get_matching_images` is caught nowhere, so it stops the
loop and the final `json.dump` (modelled by `manifestWritten := true`) is
never reached. -/
def processTasks (env : Env) (imgRoot : Str) : List Task → List GalleryItem → List Event → RunResult
  | [], out, evs => ⟨out, evs, true⟩
  | t :: rest, out, evs =>
    if t.ebay_url.isEmpty then processTasks env imgRoot rest out evs
    else if t.regex.isEmpty then processTasks env imgRoot rest out evs
    else
      match extract_item_number t.ebay_url with
      | none => processTasks env imgRoot rest out evs
      | some num =>
        match get_matching_images env t.ebay_url t.regex with
        | Except.error _ => ⟨out, evs, false⟩
        | Except.ok imgs =>
          if imgs.isEmpty then processTasks env imgRoot rest out evs
          else
            let folder := imgRoot ++ ('/' :: num)
            let r := downloadLoop env folder num imgs 1
            let out2 :=
              if r.downloaded.isEmpty && r.skipped.isEmpty then out
              else out ++ [⟨t, r.downloaded, r.skipped, imgs.length⟩]
            processTasks env imgRoot rest out2 (evs ++ r.events)

/-- Embedding of `process_gallery` (lines 275-365). -/
def process_gallery (env : Env) (imgRoot : Str) (tasks : List Task) : RunResult :=
  processTasks env imgRoot tasks [] []

/-- The spec's reading of srcset parsing: the (url, magnitude) pairs, one
per comma-separated part that has at least one token, with magnitude 0
when the descriptor is absent or has no digits. -/
def srcsetEntries (ss : Str) : List (Str × Nat) :=
  (splitComma ss).filterMap parsePart

/-- The srcset loop re-expressed over parsed entries (bridged to
`srcsetGo` by `srcsetGo_eq_entGo`). -/
def entGo : List (Str × Nat) → Option Str → Nat → Option Str
  | [], best, _ => best
  | (u, n) :: rest, best, bestSize =>
    if bestSize < n then entGo rest (some u) n else entGo rest best bestSize

/-- Maximum magnitude among parsed srcset entries. -/
def maxMag (es : List (Str × Nat)) : Nat := es.foldr (fun e m => max e.2 m) 0

/-- Invariant of the accumulation state: accepted candidates are pairwise
distinct in both URL and alt text, and every accepted alt is in `seen_alts`. -/
def GoodState (st : ExtractState) : Prop :=
  st.images.Pairwise (fun c d => c.1 ≠ d.1 ∧ c.2 ≠ d.2) ∧ ∀ c ∈ st.images, c.2 ∈ st.seenAlts

/-- The URL of the C2 counterexample: a CDN URL with the structural shape
`https://<host>/images/<id>/<id2>/s-l<size>/<file>` whose size token is in
none of the known replacement pairs. -/
def c2Url : Str := ("https://i.ebayimg.com/images/g/abc/s-l50/pic.jpg".data)

/-- An element whose alt matches `a` and whose URL comes from `src`. -/
def c1Elem : Elem := ⟨some ("a".data), none, none, none, none, none, none, some ("u2".data)⟩

def c1Page : PageModel := ⟨fun sel => if sel = ("img[alt]".data) then [c1Elem] else []⟩

/-- Navigation fails for the first task's URL only; every pattern compiles
to the literal `a`; no file exists; every download succeeds. -/
def c1Env : Env :=
  ⟨fun u => if u = ("https://www.ebay.com/itm/111".data) then Except.error () else Except.ok c1Page,
   fun _ => some (RegularExpression.char 'a'),
   fun _ => false,
   fun _ => true⟩

def c1Task1 : Task := ⟨("https://www.ebay.com/itm/111".data), ("a".data), []⟩

def c1Task2 : Task := ⟨("https://www.ebay.com/itm/222".data), ("a".data), []⟩

def c3eA : Elem := ⟨some ("a".data), none, none, none, none, none, none, some ("uA".data)⟩

def c3eB : Elem := ⟨some ("ab".data), none, none, none, none, none, none, some ("uB".data)⟩

def c3eJ : Elem := ⟨some ("aj".data), none, none, none, none, none, none, some ("uJ".data)⟩

/-- A page where the broad `img[alt]` selector finds `c3eA` and the
carousel-scoped `#vi_main_img_fs img` selector finds `c3eB`. -/
def c3Page : PageModel :=
  ⟨fun sel =>
    if sel = ("img[alt]".data) then [c3eA]
    else if sel = ("#vi_main_img_fs img".data) then [c3eB]
    else []⟩

/-- Same as `c3Page` except that the bare `img` locator (used only by the
final broad pass) answers differently. -/
def c3PageAlt : PageModel :=
  ⟨fun sel =>
    if sel = ("img[alt]".data) then [c3eA]
    else if sel = ("#vi_main_img_fs img".data) then [c3eB]
    else if sel = ("img".data) then [c3eJ]
    else []⟩

/-- An element whose only sources are a srcset entry (`big 500w`) and a
plain `src` (`small`). -/
def c4Elem : Elem := ⟨some ("a".data), none, none, none, none, some ("big 500w".data), none, some ("small".data)⟩

/-- Witness element for the amended C4: a data-URI placeholder in
`data-zoom-src`, no srcset, and a plain `src`. -/
def c4wElem : Elem := ⟨some ("a".data), some ("data:abc".data), none, none, none, none, none, some ("small".data)⟩

def c7e1 : Elem := ⟨some ("a".data), none, none, none, none, none, none, some ("u1".data)⟩

def c7e2 : Elem := ⟨some ("a".data), none, none, none, none, none, none, some ("u2".data)⟩

/-- Two elements with identical alt text but different URLs. -/
def c7Page : PageModel := ⟨fun sel => if sel = ("img[alt]".data) then [c7e1, c7e2] else []⟩

/-- An environment in which no file exists and every download succeeds. -/
def c8Env : Env := ⟨fun _ => Except.error (), fun _ => none, fun _ => false, fun _ => true⟩

def c8Cands : List (Str × Str) :=
  [(("ua".data), ("alta".data)), (("ub".data), ("altb".data)), (("uc".data), ("altc".data))]

/-- An environment in which exactly the file `d/n-001.jpg` exists. -/
def c9Env : Env :=
  ⟨fun _ => Except.error (), fun _ => none, fun fp => decide (fp = ("d/n-001.jpg".data)), fun _ => true⟩

def c9Cands : List (Str × Str) := [(("u1".data), ("a1".data)), (("u2".data), ("a2".data))]

theorem pfx_trans : ∀ {a b c : Str}, pfx a b = true → pfx b c = true → pfx a c = true
  | [], _, _, _, _ => rfl
  | _ :: _, [], _, h1, _ => by simp [pfx] at h1
  | _ :: _, _ :: _, [], _, h2 => by simp [pfx] at h2
  | a :: as, b :: bs, c :: cs, h1, h2 => by
    simp only [pfx] at h1 h2 ⊢
    split at h1
    · split at h2
      · rename_i hab hbc
        rw [if_pos (hab.trans hbc)]
        exact pfx_trans h1 h2
      · exact absurd h2 (by simp)
    · exact absurd h1 (by simp)

theorem pfx_self_app : ∀ (a b : Str), pfx a (a ++ b) = true
  | [], _ => rfl
  | x :: xs, b => by simp only [List.cons_append, pfx, if_pos rfl]; exact pfx_self_app xs b

theorem hasSub_cons {pat r : Str} (c : Char) (h : hasSub pat r = true) :
    hasSub pat (c :: r) = true := by
  simp only [hasSub, h, Bool.or_true]

theorem hasSub_of_pfx : ∀ {pat s : Str}, pfx pat s = true → hasSub pat s = true
  | _, [], h => h
  | _, _ :: _, h => by simp only [hasSub, h, Bool.true_or]

theorem hasSub_mono : ∀ {p q s : Str}, pfx p q = true → hasSub q s = true → hasSub p s = true
  | p, q, [], hpq, hq => by
    simp only [hasSub] at hq ⊢
    exact pfx_trans hpq hq
  | p, q, c :: rest, hpq, hq => by
    simp only [hasSub, Bool.or_eq_true] at hq ⊢
    rcases hq with hq | hq
    · exact Or.inl (pfx_trans hpq hq)
    · exact Or.inr (hasSub_mono hpq hq)

theorem hasSub_drop : ∀ {pat s : Str} (n : Nat), hasSub pat (s.drop n) = true → hasSub pat s = true
  | _, _, 0, h => h
  | _, [], _ + 1, h => h
  | pat, c :: rest, n + 1, h => by
    simp only [List.drop_succ_cons] at h
    exact hasSub_cons c (hasSub_drop n h)

theorem hasSub_nil_false {c : Char} {p : Str} : hasSub (c :: p) [] = false := rfl

theorem hasSub_nil_of_ne {pat : Str} (hp : pat ≠ []) : hasSub pat [] = false := by
  cases pat with
  | nil => exact absurd rfl hp
  | cons c p => rfl

theorem replaceAllAux_has {pat rep : Str} (hp : pat ≠ []) :
    ∀ (fuel : Nat) (s : Str), s.length ≤ fuel → hasSub pat s = true →
      hasSub rep (replaceAllAux pat rep fuel s) = true := by
  intro fuel
  induction fuel with
  | zero =>
    intro s hle hsub
    have hs : s = [] := List.eq_nil_of_length_eq_zero (Nat.le_zero.mp hle)
    subst hs
    rw [hasSub_nil_of_ne hp] at hsub
    exact absurd hsub (by decide)
  | succ fuel ih =>
    intro s hle hsub
    cases s with
    | nil =>
      rw [hasSub_nil_of_ne hp] at hsub
      exact absurd hsub (by decide)
    | cons c rest =>
      simp only [replaceAllAux]
      rw [if_neg hp]
      split
      · exact hasSub_of_pfx (pfx_self_app rep _)
      · rename_i hpfx
        have hrest : hasSub pat rest = true := by
          simp only [hasSub, Bool.or_eq_true] at hsub
          rcases hsub with h | h
          · exact absurd h hpfx
          · exact h
        have hlen : rest.length ≤ fuel := by
          simp only [List.length_cons] at hle
          omega
        exact hasSub_cons c (ih rest hlen hrest)

theorem replaceAll_has {s pat rep : Str} (hp : pat ≠ []) (h : hasSub pat s = true) :
    hasSub rep (replaceAll s pat rep) = true :=
  replaceAllAux_has hp s.length s (Nat.le_refl _) h

theorem replaceLoop_sl1600 :
    ∀ (prs : List (Str × Str)) (u : Str),
      (∀ pr ∈ prs, pr.1 ≠ [] ∧ pr.2 = ("s-l1600".data)) →
      replaceLoop prs u = u ∨ hasSub ("s-l1600".data) (replaceLoop prs u) = true
  | [], u, _ => Or.inl rfl
  | (tok, rep) :: rest, u, h => by
    have hhd := h (tok, rep) (List.mem_cons_self _ _)
    obtain ⟨hne, hrep⟩ := hhd
    subst hrep
    simp only [replaceLoop]
    split
    · rename_i hsub
      right
      exact replaceAll_has hne hsub
    · exact replaceLoop_sl1600 rest u (fun pr hpr => h pr (List.mem_cons_of_mem _ hpr))

theorem takeSeg_drop {s seg r : Str} (h : takeSeg s = some (seg, r)) :
    r = s.drop seg.length := by
  simp only [takeSeg] at h
  split at h
  · exact absurd h (by simp)
  · rw [Option.some.injEq, Prod.mk.injEq] at h
    obtain ⟨h1, h2⟩ := h
    subst h1
    exact h2.symm

theorem hasSub_sl_of_slash {r : Str} (h : pfx ("/s-l".data) r = true) :
    hasSub ("s-l".data) r = true := by
  have hd : ("/s-l".data : Str) = '/' :: ("s-l".data) := rfl
  rw [hd] at h
  cases r with
  | nil => exact absurd h (by decide)
  | cons c rest =>
    simp only [pfx] at h
    split at h
    · exact hasSub_cons c (hasSub_of_pfx h)
    · exact absurd h (by decide)

theorem structuralMatchAt_sl {s b : Str} (h : structuralMatchAt s = some b) :
    hasSub ("s-l".data) s = true := by
  rw [structuralMatchAt] at h
  by_cases h0 : pfx ("https://".data) s = true
  case neg =>
    rw [if_neg h0] at h
    exact absurd h (by simp)
  rw [if_pos h0] at h
  rcases heq1 : takeSeg (s.drop 8) with _ | ⟨seg1, r1⟩
  · simp only [heq1] at h
    exact absurd h (by simp)
  simp only [heq1] at h
  by_cases hi : pfx ("/images/".data) r1 = true
  case neg =>
    rw [if_neg hi] at h
    exact absurd h (by simp)
  rw [if_pos hi] at h
  rcases heq2 : takeSeg (r1.drop 8) with _ | ⟨seg2, r3⟩
  · simp only [heq2] at h
    exact absurd h (by simp)
  simp only [heq2] at h
  rcases hr3 : r3 with _ | ⟨c3, r3tl⟩
  · simp only [hr3] at h
    exact absurd h (by simp)
  simp only [hr3] at h
  by_cases hc : c3 = '/'
  case neg =>
    rw [if_neg hc] at h
    exact absurd h (by simp)
  rw [if_pos hc] at h
  subst hc
  rcases heq4 : takeSeg r3tl with _ | ⟨seg3, r4⟩
  · simp only [heq4] at h
    exact absurd h (by simp)
  simp only [heq4] at h
  by_cases hp4 : pfx ("/s-l".data) r4 = true
  case neg =>
    rw [if_neg hp4] at h
    exact absurd h (by simp)
  have h4 : hasSub ("s-l".data) r4 = true := hasSub_sl_of_slash hp4
  have h3tl : hasSub ("s-l".data) r3tl = true := by
    rw [takeSeg_drop heq4] at h4
    exact hasSub_drop _ h4
  have h3 : hasSub ("s-l".data) r3 = true := by
    rw [hr3]
    exact hasSub_cons _ h3tl
  have h1' : hasSub ("s-l".data) r1 = true := by
    rw [takeSeg_drop heq2] at h3
    exact hasSub_drop _ (hasSub_drop _ h3)
  rw [takeSeg_drop heq1] at h1'
  exact hasSub_drop _ (hasSub_drop _ h1')

theorem searchWith_drop {f : Str → Option Str} :
    ∀ {s r : Str}, searchWith f s = some r → ∃ n, f (s.drop n) = some r
  | [], r, h => ⟨0, h⟩
  | c :: rest, r, h => by
    simp only [searchWith] at h
    split at h
    · rename_i r' heq
      exact ⟨0, by rw [List.drop_zero, heq, h]⟩
    · obtain ⟨n, hn⟩ := searchWith_drop h
      exact ⟨n + 1, by rw [List.drop_succ_cons]; exact hn⟩

theorem structuralSearch_sl {s b : Str} (h : structuralSearch s = some b) :
    hasSub ("s-l".data) s = true := by
  rw [structuralSearch] at h
  obtain ⟨n, hn⟩ := searchWith_drop h
  exact hasSub_drop n (structuralMatchAt_sl hn)

theorem pfx_sl_sl1600 : pfx ("s-l".data) ("s-l1600".data) = true := by decide

theorem upgrade_of_sl1600 {u : Str} (h : hasSub ("s-l1600".data) u = true) :
    upgrade_to_fullsize_image u = u := by
  have hne : u ≠ [] := by
    intro he
    subst he
    rw [hasSub_nil_of_ne (by decide)] at h
    exact absurd h (by decide)
  rw [upgrade_to_fullsize_image, if_neg hne, if_pos h]

theorem upgrade_cases (u : Str) :
    upgrade_to_fullsize_image u = u ∨
      hasSub ("s-l1600".data) (upgrade_to_fullsize_image u) = true := by
  by_cases h0 : u = []
  · left
    rw [upgrade_to_fullsize_image, if_pos h0]
  by_cases h1 : hasSub ("s-l1600".data) u = true
  · left
    exact upgrade_of_sl1600 h1
  rcases replaceLoop_sl1600 sizeReplacements u (by decide) with h2 | h2
  · left
    simp only [upgrade_to_fullsize_image]
    rw [if_neg h0, if_neg h1, h2]
    split
    · rename_i hg
      split
      · rename_i base heq
        have hsl : hasSub ("s-l".data) u = true := structuralSearch_sl heq
        rw [Bool.and_eq_true, Bool.not_eq_true'] at hg
        exact absurd hsl (by rw [hg.1]; decide)
      · rfl
    · rfl
  · right
    simp only [upgrade_to_fullsize_image]
    rw [if_neg h0, if_neg h1]
    have hsl : hasSub ("s-l".data) (replaceLoop sizeReplacements u) = true :=
      hasSub_mono pfx_sl_sl1600 h2
    simp only [hsl, Bool.not_true, Bool.false_and, Bool.false_eq_true, if_false]
    exact h2

theorem upgrade_idem (u : Str) :
    upgrade_to_fullsize_image (upgrade_to_fullsize_image u) = upgrade_to_fullsize_image u := by
  rcases upgrade_cases u with h | h
  · rw [h, h]
  · exact upgrade_of_sl1600 h

theorem foldl_preserve {α β : Type} {P : α → Prop} {f : α → β → α}
    (hf : ∀ st e, P st → P (f st e)) : ∀ (l : List β) (st : α), P st → P (l.foldl f st)
  | [], _, h => h
  | e :: rest, st, h => foldl_preserve hf rest (f st e) (hf st e h)

theorem appendCandidate_good {st : ExtractState} {u alt : Str} (h : GoodState st) :
    GoodState (appendCandidate st u alt) := by
  obtain ⟨hp, hs⟩ := h
  rw [appendCandidate]
  split_ifs with hu ha
  · exact ⟨hp, hs⟩
  · exact ⟨hp, hs⟩
  · constructor
    · rw [List.pairwise_append]
      refine ⟨hp, List.pairwise_singleton _ _, ?_⟩
      intro a hmem b hb
      rw [List.mem_singleton] at hb
      subst hb
      show a.1 ≠ u ∧ a.2 ≠ alt
      constructor
      · intro heq
        exact hu (heq ▸ List.mem_map_of_mem Prod.fst hmem)
      · intro heq
        exact ha (heq ▸ hs a hmem)
    · intro c hc
      rw [List.mem_append] at hc
      rcases hc with hc | hc
      · exact List.mem_append_left _ (hs c hc)
      · rw [List.mem_singleton] at hc
        subst hc
        exact List.mem_append_right _ (List.mem_singleton_self _)

theorem step_good {pat : RegularExpression Char} {resolve : Elem → Option Str}
    {st : ExtractState} {e : Elem} (h : GoodState st) : GoodState (step pat resolve st e) := by
  rw [step]
  split
  · exact h
  · split_ifs with h1 h2
    · exact h
    · split
      · exact h
      · split_ifs with h3
        · exact appendCandidate_good h
        · exact h
    · exact h

theorem getMatchingImagesCore_good (p : PageModel) (pat : RegularExpression Char) :
    (getMatchingImagesCore p pat).Pairwise (fun c d => c.1 ≠ d.1 ∧ c.2 ≠ d.2) := by
  have hinit : GoodState ⟨[], []⟩ := ⟨List.Pairwise.nil, by simp⟩
  have h5 : GoodState (specificPassState p pat) := by
    rw [specificPassState]
    refine foldl_preserve ?_ selectors ⟨[], []⟩ hinit
    intro st sel hst
    rw [runPass]
    exact foldl_preserve (fun st2 e2 h2 => step_good h2) _ st hst
  simp only [getMatchingImagesCore]
  split
  · exact (foldl_preserve (fun st2 e2 h2 => step_good h2)
      (p.locate ("img".data)) (specificPassState p pat) h5).1
  · exact h5.1

theorem specificPassState_frame {p q : PageModel} (pat : RegularExpression Char)
    (h : ∀ sel ∈ selectors, p.locate sel = q.locate sel) :
    specificPassState p pat = specificPassState q pat := by
  have h1 := h _ (show ("img[alt]".data) ∈ selectors by decide)
  have h2 := h _ (show ("#vi_main_img_fs img".data) ∈ selectors by decide)
  have h3 := h _ (show (".vi-image-carousel img".data) ∈ selectors by decide)
  have h4 := h _ (show ("#vi_main_img_fs_slider img".data) ∈ selectors by decide)
  have h5 := h _ (show (".vi-image-carousel-list img".data) ∈ selectors by decide)
  simp only [specificPassState, selectors, List.foldl_cons, List.foldl_nil, h1, h2, h3, h4, h5]


theorem maxMag_cons (e : Str × Nat) (es : List (Str × Nat)) :
    maxMag (e :: es) = max e.2 (maxMag es) := rfl

theorem srcsetGo_eq_entGo :
    ∀ (parts : List Str) (best : Option Str) (bs : Nat),
      srcsetGo parts best bs = entGo (parts.filterMap parsePart) best bs
  | [], _, _ => rfl
  | part :: rest, best, bs => by
    simp only [srcsetGo, List.filterMap_cons]
    rcases hp : parsePart part with _ | ⟨url, size⟩
    · simp only [hp]
      exact srcsetGo_eq_entGo rest best bs
    · simp only [hp, entGo]
      split_ifs
      · exact srcsetGo_eq_entGo rest (some url) size
      · exact srcsetGo_eq_entGo rest best bs

theorem entGo_le : ∀ (es : List (Str × Nat)) (best : Option Str) (bs : Nat),
    maxMag es ≤ bs → entGo es best bs = best
  | [], _, _, _ => rfl
  | (u, n) :: rest, best, bs, h => by
    rw [maxMag_cons, Nat.max_le] at h
    simp only [entGo]
    rw [if_neg (Nat.not_lt.mpr h.1)]
    exact entGo_le rest best bs h.2

theorem entGo_gt : ∀ (es : List (Str × Nat)) (best : Option Str) (bs : Nat),
    bs < maxMag es →
    entGo es best bs = ((es.find? fun e => e.2 == maxMag es).map Prod.fst)
  | [], _, bs, h => absurd h (by simp [maxMag])
  | (u, n) :: rest, best, bs, h => by
    rw [maxMag_cons] at h
    by_cases hn : bs < n
    · by_cases hR : maxMag rest ≤ n
      · have hM : maxMag ((u, n) :: rest) = n := by
          rw [maxMag_cons]
          exact Nat.max_eq_left hR
        rw [hM, List.find?_cons_of_pos _ (by simp)]
        simp only [entGo, Option.map_some]
        rw [if_pos hn]
        exact entGo_le rest (some u) n hR
      · have hlt : n < maxMag rest := Nat.lt_of_not_le hR
        have hM : maxMag ((u, n) :: rest) = maxMag rest := by
          rw [maxMag_cons]
          exact Nat.max_eq_right (Nat.le_of_lt hlt)
        rw [hM, List.find?_cons_of_neg _ (by simp; omega)]
        simp only [entGo]
        rw [if_pos hn]
        exact entGo_gt rest (some u) n hlt
    · have hbR : bs < maxMag rest := by
        rcases Nat.lt_or_ge bs (maxMag rest) with hlt | hge
        · exact hlt
        · have hle : max n (maxMag rest) ≤ bs := Nat.max_le.mpr ⟨Nat.not_lt.mp hn, hge⟩
          omega
      have hM : maxMag ((u, n) :: rest) = maxMag rest := by
        rw [maxMag_cons]
        exact Nat.max_eq_right (by omega)
      rw [hM, List.find?_cons_of_neg _ (by simp; omega)]
      simp only [entGo]
      rw [if_neg hn]
      exact entGo_gt rest best bs hbR

theorem downloadLoop_filenames (env : Env) (folder num : Str) :
    ∀ (cands : List (Str × Str)) (idx : Nat),
      (downloadLoop env folder num cands idx).filenames =
        (List.range cands.length).map
          (fun i => num ++ ('-' :: pad3 (idx + i)) ++ (".jpg".data))
  | [], idx => by simp [downloadLoop]
  | (url, alt) :: rest, idx => by
    have ih := downloadLoop_filenames env folder num rest (idx + 1)
    have hf : (downloadLoop env folder num ((url, alt) :: rest) idx).filenames =
        (num ++ ('-' :: pad3 idx) ++ (".jpg".data)) ::
          (downloadLoop env folder num rest (idx + 1)).filenames := by
      simp only [downloadLoop]
      split_ifs <;> rfl
    rw [hf, ih, List.length_cons, List.range_succ_eq_map, List.map_cons, List.map_map]
    congr 1
    apply List.map_congr_left
    intro i hi
    simp only [Function.comp_apply]
    have e : idx + 1 + i = idx + (i + 1) := by omega
    rw [e]

theorem downloadLoop_no_touch (env : Env) (folder num : Str) :
    ∀ (cands : List (Str × Str)) (idx : Nat) (ev : Event),
      ev ∈ (downloadLoop env folder num cands idx).events →
      env.fileExists (eventPath ev) = false
  | [], _, ev, h => absurd h (by simp [downloadLoop])
  | (url, alt) :: rest, idx, ev, h => by
    have ih := downloadLoop_no_touch env folder num rest (idx + 1)
    simp only [downloadLoop] at h
    split_ifs at h with h1 h2
    · exact ih ev h
    · simp only [List.mem_cons] at h
      rcases h with rfl | rfl | h
      · exact Bool.eq_false_iff.mpr h1
      · exact Bool.eq_false_iff.mpr h1
      · exact ih ev h
    · simp only [List.mem_cons] at h
      rcases h with rfl | h
      · exact Bool.eq_false_iff.mpr h1
      · exact ih ev h

theorem downloadLoop_skips (env : Env) (folder num : Str) :
    ∀ (cands : List (Str × Str)) (idx i : Nat), i < cands.length →
      env.fileExists (folder ++ ('/' :: (num ++ ('-' :: pad3 (idx + i)) ++ (".jpg".data)))) = true →
      (num ++ ('-' :: pad3 (idx + i)) ++ (".jpg".data)) ∈
        (downloadLoop env folder num cands idx).skipped
  | [], _, i, hi, _ => absurd hi (by simp)
  | (url, alt) :: rest, idx, i, hi, hex => by
    cases i with
    | zero =>
      rw [Nat.add_zero] at hex ⊢
      simp only [downloadLoop]
      rw [if_pos hex]
      exact List.mem_cons_self _ _
    | succ j =>
      have hlt : j < rest.length := by
        simp only [List.length_cons] at hi
        omega
      have harr : idx + (j + 1) = idx + 1 + j := by omega
      rw [harr] at hex ⊢
      have ih := downloadLoop_skips env folder num rest (idx + 1) j hlt hex
      simp only [downloadLoop]
      split_ifs with h1 h2
      · exact List.mem_cons_of_mem _ ih
      · exact ih
      · exact ih

/-- C1: the claim fails on the code and is amended. A failure of one
task's navigation (`page.goto` raising, e.g. on timeout) is caught
nowhere: it aborts the whole run, so no subsequent task is processed (the
run result does not depend on the tasks after the failing one) and the
manifest is never written. -/
theorem C1_nav_failure_aborts_run (env : Env) (root : Str) (t : Task) (num : Str)
    (h1 : t.ebay_url ≠ []) (h2 : t.regex ≠ [])
    (h3 : extract_item_number t.ebay_url = some num)
    (h4 : env.nav t.ebay_url = Except.error ()) (rest rest2 : List Task) :
    process_gallery env root (t :: rest) = process_gallery env root (t :: rest2) ∧
    (process_gallery env root (t :: rest)).manifestWritten = false := by
  have key : ∀ l : List Task, processTasks env root (t :: l) [] [] = ⟨[], [], false⟩ := by
    intro l
    have e1 : t.ebay_url.isEmpty = false := by
      cases hu : t.ebay_url
      · exact absurd hu h1
      · rfl
    have e2 : t.regex.isEmpty = false := by
      cases hr : t.regex
      · exact absurd hr h2
      · rfl
    simp only [processTasks, e1, e2, Bool.false_eq_true, if_false, h3,
      get_matching_images, h4]
  rw [process_gallery, process_gallery, key rest, key rest2]
  exact ⟨rfl, rfl⟩


/-- C1 counterexample: navigation of the first task fails; the code
returns with no manifest written and no fetch performed, although the
second task alone would be processed completely (manifest written, a
fetch event recorded, one output item). The claim predicted that
processing continues and the manifest is still written. -/
theorem C1_counterexample :
    c1Env.nav c1Task1.ebay_url = Except.error () ∧
    process_gallery c1Env ("gallery".data) [c1Task1, c1Task2] = ⟨[], [], false⟩ ∧
    (process_gallery c1Env ("gallery".data) [c1Task2]).manifestWritten = true ∧
    (process_gallery c1Env ("gallery".data) [c1Task2]).events ≠ [] :=
  ⟨rfl, by decide, by decide, by decide⟩

theorem C1_witness :
    process_gallery c1Env ("gallery".data) [c1Task1, c1Task2] =
        process_gallery c1Env ("gallery".data) [c1Task1] ∧
    (process_gallery c1Env ("gallery".data) [c1Task1, c1Task2]).manifestWritten = false :=
  C1_nav_failure_aborts_run c1Env ("gallery".data) c1Task1 ("111".data)
    (by decide) (by decide) (by decide) rfl [c1Task2] []

/-- C2: the claim is right and the code is wrong (dead code). `c2Url`
contains no known thumbnail token and matches the structural CDN pattern
(`structuralSearch` finds the group), yet `upgrade_to_fullsize_image`
returns it unchanged: the rewrite branch is guarded by the absence of the
substring `s-l` while its own regex demands `/s-l<digit>`, contradicting
the comment above it (`Pattern: .../s-l500/something.jpg`). -/
theorem C2_structural_rewrite_never_fires :
    upgrade_to_fullsize_image c2Url = c2Url ∧
    structuralSearch c2Url = some ("https://i.ebayimg.com/images/g/abc".data) ∧
    replaceLoop sizeReplacements c2Url = c2Url ∧
    hasSub ("s-l1600".data) c2Url = false ∧
    upgrade_to_fullsize_image c2Url ≠
      ("https://i.ebayimg.com/images/g/abc/s-l1600/pic.jpg".data) := by
  refine ⟨?_, ?_, ?_, ?_, ?_⟩ <;> decide

/-- C3 counterexample: a carousel-scoped selector yields an element, yet
the result also contains (first!) the candidate discovered by the broad
`img[alt]` selector — that selector is the first pass and runs
unconditionally, it is not a fallback. -/
theorem C3_counterexample :
    c3Page.locate ("#vi_main_img_fs img".data) ≠ [] ∧
    getMatchingImagesCore c3Page (RegularExpression.char 'a') =
      [(("uA".data), ("a".data)), (("uB".data), ("ab".data))] := by
  refine ⟨?_, ?_⟩ <;> decide

/-- C3 amended: the five selector passes (the first of which is the broad
`img[alt]`) run unconditionally in source order; only the final
every-image pass is conditional on the five passes having produced
nothing. Hence when they produce something, the result equals their
accumulated list and is independent of the page's answer to any other
locator (in particular `img`). -/
theorem C3_broad_pass_only_if_empty (p q : PageModel) (pat : RegularExpression Char)
    (hagree : ∀ sel ∈ selectors, p.locate sel = q.locate sel)
    (hne : (specificPassState p pat).images ≠ []) :
    getMatchingImagesCore p pat = (specificPassState p pat).images ∧
    getMatchingImagesCore q pat = (specificPassState p pat).images := by
  have hq : specificPassState q pat = specificPassState p pat :=
    (specificPassState_frame pat hagree).symm
  constructor
  · simp only [getMatchingImagesCore]
    rw [if_neg hne]
  · simp only [getMatchingImagesCore, hq]
    rw [if_neg hne]

theorem C3_witness :
    getMatchingImagesCore c3Page (RegularExpression.char 'a') =
      (specificPassState c3Page (RegularExpression.char 'a')).images ∧
    getMatchingImagesCore c3PageAlt (RegularExpression.char 'a') =
      (specificPassState c3Page (RegularExpression.char 'a')).images :=
  C3_broad_pass_only_if_empty c3Page c3PageAlt (RegularExpression.char 'a')
    (by decide) (by decide)

/-- C4 counterexample: the element `c4Elem` resolves differently in the
two kinds of passes, because the broad pass's chain omits the srcset
step: the selector passes pick the srcset's largest entry, the broad pass
falls through to `src`. -/
theorem C4_counterexample :
    resolveChain c4Elem = some ("big".data) ∧
    resolveBroad c4Elem = some ("small".data) ∧
    resolveChain c4Elem ≠ resolveBroad c4Elem := by
  refine ⟨?_, ?_, ?_⟩ <;> decide

/-- C4 amended: the selector passes resolve data attributes, then srcset,
then `data-src`, then `src`; the broad pass uses the same chain minus the
srcset step (so both chains agree whenever `srcset` is absent), and a
value beginning with `data:` is rejected with the chain continuing (a
`data:` value in `data-zoom-src` resolves exactly as if the attribute
were absent). -/
theorem C4_chain_amended (e : Elem) :
    (e.srcset = none → resolveChain e = resolveBroad e) ∧
    (∀ x : Str, e.dataZoomSrc = some (("data:".data) ++ x) →
      resolveChain e =
        resolveChain ⟨e.alt, none, e.dataFullImage, e.dataOriginal, e.dataLargeImage,
          e.srcset, e.dataSrc, e.src⟩) := by
  constructor
  · intro hss
    have hs1 : ∀ cur, srcsetStep e cur = cur := by
      intro cur
      rw [srcsetStep, show getAttr e ("srcset".data) = e.srcset from rfl, hss]
      split <;> rfl
    rw [resolveChain, resolveBroad, hs1]
  · intro x hz
    have hu : usableO (some (("data:".data) ++ x)) = false := by
      simp only [usableO, pfx_self_app, Bool.not_true, Bool.and_false]
    have hloop : dataAttrLoop e =
        dataAttrGo e [("data-full-image".data), ("data-original".data),
          ("data-large-image".data)] none := by
      have h1 : dataAttrLoop e =
          if usableO (getAttr e ("data-zoom-src".data)) then getAttr e ("data-zoom-src".data)
          else dataAttrGo e [("data-full-image".data), ("data-original".data),
            ("data-large-image".data)] (getAttr e ("data-zoom-src".data)) := rfl
      rw [h1, show getAttr e ("data-zoom-src".data) = e.dataZoomSrc from rfl, hz, hu]
      simp only [Bool.false_eq_true, if_false]
      rfl
    rw [resolveChain, resolveChain, hloop]
    rfl

theorem C4_witness :
    resolveChain c4wElem = resolveBroad c4wElem ∧
    resolveChain c4wElem =
      resolveChain ⟨c4wElem.alt, none, c4wElem.dataFullImage, c4wElem.dataOriginal,
        c4wElem.dataLargeImage, c4wElem.srcset, c4wElem.dataSrc, c4wElem.src⟩ :=
  ⟨(C4_chain_amended c4wElem).1 (by decide),
   (C4_chain_amended c4wElem).2 ("abc".data) (by decide)⟩

/-- C5 counterexample: `"a.jpg, b.jpg"` parses into two entries, both of
magnitude 0; the claim says the first-seen maximum (`a.jpg`) is returned,
but the loop's strict `size > largest_size` test starting from 0 never
fires, so no URL is selected at all. -/
theorem C5_counterexample :
    srcsetEntries ("a.jpg, b.jpg".data) = [(("a.jpg".data), 0), (("b.jpg".data), 0)] ∧
    srcsetLargest ("a.jpg, b.jpg".data) = none := by
  refine ⟨?_, ?_⟩ <;> decide

/-- C5 amended: srcset resolution returns the URL of the first entry
achieving the maximum magnitude when that maximum is positive, and
returns nothing (falling through to the next chain step) when every
magnitude is 0 — in particular it is not total on nonempty entry lists. -/
theorem C5_srcset_max_positive (ss : Str) :
    srcsetLargest ss =
      if maxMag (srcsetEntries ss) = 0 then none
      else ((srcsetEntries ss).find? fun e => e.2 == maxMag (srcsetEntries ss)).map Prod.fst := by
  rw [srcsetLargest, srcsetGo_eq_entGo]
  have hE : (splitComma ss).filterMap parsePart = srcsetEntries ss := rfl
  rw [hE]
  split_ifs with h
  · exact entGo_le _ none 0 (Nat.le_of_eq h)
  · exact entGo_gt _ none 0 (Nat.pos_of_ne_zero h)

/-- C6: `upgrade_to_fullsize_image` is idempotent, and a URL already
containing the full-size marker `s-l1600` is returned unchanged. -/
theorem C6_upgrade_idempotent (u : Str) :
    upgrade_to_fullsize_image (upgrade_to_fullsize_image u) = upgrade_to_fullsize_image u ∧
    (hasSub ("s-l1600".data) u = true → upgrade_to_fullsize_image u = u) :=
  ⟨upgrade_idem u, fun h => upgrade_of_sl1600 h⟩

theorem C6_witness :
    hasSub ("s-l1600".data) ("https://i.ebayimg.com/images/g/xyz/s-l1600/pic.jpg".data) = true ∧
    upgrade_to_fullsize_image ("https://i.ebayimg.com/images/g/xyz/s-l1600/pic.jpg".data) =
      ("https://i.ebayimg.com/images/g/xyz/s-l1600/pic.jpg".data) :=
  ⟨by decide, (C6_upgrade_idempotent _).2 (by decide)⟩

/-- C7: extraction output never contains two candidates sharing a URL or
sharing an alt text (accumulation checks both before appending), and the
concrete page with two identical-alt, different-URL elements yields
exactly one candidate, the first discovered. -/
theorem C7_dedup_invariant :
    (∀ (p : PageModel) (pat : RegularExpression Char),
        (getMatchingImagesCore p pat).Pairwise fun c d => c.1 ≠ d.1 ∧ c.2 ≠ d.2) ∧
    getMatchingImagesCore c7Page (RegularExpression.char 'a') = [(("u1".data), ("a".data))] :=
  ⟨getMatchingImagesCore_good, by decide⟩

/-- C8: the filenames computed by the download loop for a task with item
id `num` and `n` candidates are exactly `num-001.jpg` … `num-{n:03d}.jpg`
in candidate order (1-based, zero-padded to three digits), and on the
spec's example URL the extracted id gives `123456789-001.jpg` …
`123456789-003.jpg` for three candidates. -/
theorem C8_filenames_sequential :
    (∀ (env : Env) (folder num : Str) (cands : List (Str × Str)),
        (downloadLoop env folder num cands 1).filenames =
          (List.range cands.length).map
            (fun i => num ++ ('-' :: pad3 (i + 1)) ++ (".jpg".data))) ∧
    extract_item_number ("https://www.ebay.com/itm/123456789".data) = some ("123456789".data) ∧
    (downloadLoop c8Env ("gallery/123456789".data) ("123456789".data) c8Cands 1).filenames =
      [("123456789-001.jpg".data), ("123456789-002.jpg".data), ("123456789-003.jpg".data)] := by
  refine ⟨?_, by decide, by decide⟩
  intro env folder num cands
  rw [downloadLoop_filenames]
  apply List.map_congr_left
  intro i hi
  have e : 1 + i = i + 1 := by omega
  rw [e]

/-- C9: a candidate whose target file exists on disk has its filename in
`skipped_files`, and no event of the loop (neither a fetch nor a write)
touches that file's path; re-running is the same pure function, so the
skipped list is reproduced identically with zero fetches for those files. -/
theorem C9_existing_skipped (env : Env) (folder num : Str) (cands : List (Str × Str)) (i : Nat)
    (hi : i < cands.length)
    (hex : env.fileExists (folder ++ ('/' :: (num ++ ('-' :: pad3 (i + 1)) ++ (".jpg".data)))) = true) :
    (num ++ ('-' :: pad3 (i + 1)) ++ (".jpg".data)) ∈ (downloadLoop env folder num cands 1).skipped ∧
    ∀ ev ∈ (downloadLoop env folder num cands 1).events,
      eventPath ev ≠ (folder ++ ('/' :: (num ++ ('-' :: pad3 (i + 1)) ++ (".jpg".data)))) := by
  have e : i + 1 = 1 + i := by omega
  constructor
  · rw [e] at hex ⊢
    exact downloadLoop_skips env folder num cands 1 i hi hex
  · intro ev hev heq
    have hfalse := downloadLoop_no_touch env folder num cands 1 ev hev
    rw [heq] at hfalse
    rw [hfalse] at hex
    exact absurd hex (by decide)

theorem C9_witness :
    (("n".data) ++ ('-' :: pad3 (0 + 1)) ++ (".jpg".data)) ∈
        (downloadLoop c9Env ("d".data) ("n".data) c9Cands 1).skipped ∧
    ∀ ev ∈ (downloadLoop c9Env ("d".data) ("n".data) c9Cands 1).events,
      eventPath ev ≠ (("d".data) ++ ('/' :: (("n".data) ++ ('-' :: pad3 (0 + 1)) ++ (".jpg".data)))) :=
  C9_existing_skipped c9Env ("d".data) ("n".data) c9Cands 0 (by decide) (by decide)

/-- C10: the match test used on every element's alt text is `re.search`
semantics — it succeeds exactly when the compiled pattern matches some
contiguous substring (any decomposition `pre ++ mid ++ post` with `mid`
matched), not only when it matches the whole text. -/
theorem C10_search_is_substring_match (pat : RegularExpression Char) (s : Str) :
    research pat s = true ↔
      ∃ pre mid post : Str, s = pre ++ mid ++ post ∧ pat.rmatch mid = true := by
  rw [research, List.any_eq_true]
  constructor
  · rintro ⟨t, ht, h2⟩
    rw [List.any_eq_true] at h2
    obtain ⟨mid, hmid, hm⟩ := h2
    rw [List.mem_tails] at ht
    rw [List.mem_inits] at hmid
    obtain ⟨pre, hpre⟩ := ht
    obtain ⟨post, hpost⟩ := hmid
    refine ⟨pre, mid, post, ?_, hm⟩
    rw [← hpre, ← hpost]
    exact (List.append_assoc pre mid post).symm
  · rintro ⟨pre, mid, post, hs, hm⟩
    refine ⟨mid ++ post, ?_, ?_⟩
    · rw [List.mem_tails]
      exact ⟨pre, by rw [hs, List.append_assoc]⟩
    · rw [List.any_eq_true]
      refine ⟨mid, ?_, hm⟩
      rw [List.mem_inits]
      exact ⟨post, rfl⟩

end EbayImages
